/-
Verification of the hybrid retrieval and knowledge-graph ingestion subsystem
of the Autonomous Research Assistant repository.

The Python sources under backend/ are shallowly embedded as pure Lean
functions.  External collaborators (the sentence-embedding encoder, the
semantic chunker of the chonkie library, the generative model, json.loads,
the uuid generator, and the two database servers) are passed in as explicit
function parameters or oracle values of type Except String _, so that code
paths that catch exceptions from those collaborators can be analysed.
Python dictionaries are modelled as association lists with insertion-order
update semantics; Python None is modelled with Option.
-/
import Mathlib

namespace ARA

/-! ## Association-list dictionaries (Python dict model)

A Python dict keeps insertion order: assigning to an existing key updates it
in place, assigning a new key appends it.  Lookup takes the first (unique)
binding of a key. -/

/-- Dictionary lookup: the value bound to key `k`, if any. -/
def dictGet {β : Type} (l : List (String × β)) (k : String) : Option β :=
  match l with
  | [] => none
  | (k2, v) :: t => if k = k2 then some v else dictGet t k

/-- Set key `k` to value `v` in the dict `l`, Python-style: replace the
binding in place if the key is present, otherwise append it. -/
def updList {β : Type} (l : List (String × β)) (k : String) (v : β) :
    List (String × β) :=
  if l.any (fun p => p.1 = k) then
    l.map (fun p => if p.1 = k then (k, v) else p)
  else
    l ++ [(k, v)]

/-- Apply every binding of `upd` to `base` in order (Python dict update /
the `**` spread / Cypher `SET n += map`). -/
def applyProps {β : Type} (base upd : List (String × β)) : List (String × β) :=
  upd.foldl (fun acc kv => updList acc kv.1 kv.2) base

/-! ## Python string primitives

Modelled over the character list of the string so that every definition
reduces by computation (`String.trim`, `String.take` and friends go through
`Substring` byte positions, which the kernel does not evaluate). -/

/-- A whitespace character, as both Python's strip/split and the code's
uses of them treat it. -/
def isPySpace (c : Char) : Bool := c.isWhitespace

/-- Python str.strip(): drop whitespace from both ends. -/
def pyStrip (s : String) : String :=
  String.mk (((s.toList.dropWhile isPySpace).reverse.dropWhile isPySpace).reverse)

/-- Python str.startswith(pre). -/
def pyStartsWith (s pre : String) : Bool :=
  pre.toList.isPrefixOf s.toList

/-- Python str.endswith(suf). -/
def pyEndsWith (s suf : String) : Bool :=
  suf.toList.reverse.isPrefixOf s.toList.reverse

/-- Drop the last n characters. -/
def pyDropRight (s : String) (n : Nat) : String :=
  String.mk (s.toList.take (s.toList.length - n))

/-- Python s[:n]. -/
def pySlice (s : String) (n : Nat) : String :=
  String.mk (s.toList.take n)

/-- Split a character list at whitespace; empty segments between
consecutive separators are kept (the caller filters on length anyway,
which drops them exactly as Python's str.split() does). -/
def splitWs : List Char → List Char → List (List Char)
  | [], acc => [acc.reverse]
  | c :: rest, acc =>
    if isPySpace c then acc.reverse :: splitWs rest []
    else splitWs rest (c :: acc)

/-! ## A minimal JSON value type (for json.loads results and point payloads) -/

/-- JSON values, as produced by `json.loads`.  Numeric precision plays no
role in any analysed property, so numbers are integers. -/
inductive Json where
  | null : Json
  | bool (b : Bool) : Json
  | num (n : Int) : Json
  | str (s : String) : Json
  | arr (elems : List Json) : Json
  | obj (fields : List (String × Json)) : Json

/-- Python `len` applied to a JSON value: defined on strings, arrays and
objects, a `TypeError` (modelled as `Except.error`) otherwise. -/
def pyLen : Json → Except String Nat
  | Json.str s => Except.ok s.length
  | Json.arr l => Except.ok l.length
  | Json.obj l => Except.ok l.length
  | _ => Except.error "TypeError: object has no len"

/-! ## Embedder (backend/ingestion/embedder.py)

The sentence-transformer model is the abstract encoder `encode : String → V`
(spec: the embedding model is a black-box function text → vector); `V` is
the vector type.  `embedder.encode` applied to a batch is the element-wise
map of `encode`. -/

/-- The dynamically-typed argument of `embed_documents`: a bare string or a
list of strings (Python `Union[str, list[str]]`). -/
inductive EmbedInput where
  | str (s : String) : EmbedInput
  | list (l : List String) : EmbedInput

/-- The dynamically-typed return value of `embed_documents`: a single flat
vector (`embeddings[0].tolist()`) when exactly one embedding was produced,
otherwise a list of vectors. -/
inductive EmbedResult (V : Type) where
  | single (v : V) : EmbedResult V
  | multiple (vs : List V) : EmbedResult V
deriving DecidableEq

/-- embedder.embed_documents: prepend the Nomic document prefix to every
text, encode the batch, and return a flat vector when the batch produced
exactly one embedding, else the list of vectors. -/
def embed_documents {V : Type} (encode : String → V) (texts : EmbedInput) : EmbedResult V :=
  let ts : List String :=
    match texts with
    | EmbedInput.str s => [s]
    | EmbedInput.list l => l
  let prefixed := ts.map (fun text => "search_document: " ++ text)
  let embeddings := prefixed.map encode
  match embeddings with
  | [v] => EmbedResult.single v
  | vs => EmbedResult.multiple vs

/-- embedder.embed_query: prepend the Nomic query prefix and encode. -/
def embed_query {V : Type} (encode : String → V) (query : String) : V :=
  encode ("search_query: " ++ query)

/-- The vector that `embed_documents` produced for the first input text
(`embed_documents([q])[0]` at the spec's level of description). -/
def firstDoc {V : Type} : EmbedResult V → Option V
  | EmbedResult.single v => some v
  | EmbedResult.multiple vs => vs.head?

/-! ## Chunker (backend/ingestion/chunker.py)

The chonkie SemanticChunker is external; it is the abstract parameter
`chunkerFn : String → List SemChunk` returning the semantic chunks of a
document. -/

/-- A chunk as returned by the chonkie SemanticChunker: its text and
(optionally) a token count. -/
structure SemChunk where
  text : String
  token_count : Option Nat
deriving DecidableEq

/-- A chunk record built by `chunk_text`. -/
structure RawChunk where
  text : String
  index : Nat
  token_count : Option Nat
deriving DecidableEq

/-- chunker.chunk_text: empty or whitespace-only text yields `[]`; otherwise
the semantic chunks are enumerated into records carrying their 0-based
position. -/
def chunk_text (chunkerFn : String → List SemChunk) (text : String) : List RawChunk :=
  if pyStrip text = "" then []
  else
    (chunkerFn text).enum.map
      (fun p => { text := p.2.text, index := p.1, token_count := p.2.token_count })

/-- A chunk record extended with its embedding, as built by
`chunk_and_embed`. -/
structure Chunk (V : Type) where
  text : String
  index : Nat
  token_count : Option Nat
  embedding : V
deriving DecidableEq

/-- chunker.chunk_and_embed: chunk the text, batch-embed the chunk texts,
and zip the embeddings back onto the chunk records by position.  The Python
code wraps the result of `embed_documents` in a one-element list when there
is exactly one chunk (because `embed_documents` then returned one flat
vector); the `single`/`multiple` match below is that same reshaping. -/
def chunk_and_embed {V : Type} (chunkerFn : String → List SemChunk)
    (encode : String → V) (text : String) : List (Chunk V) :=
  let chunks := chunk_text chunkerFn text
  if chunks.isEmpty then []
  else
    let texts := chunks.map (fun c => c.text)
    let embeddings : List V :=
      match embed_documents encode (EmbedInput.list texts) with
      | EmbedResult.single v => [v]
      | EmbedResult.multiple vs => vs
    (chunks.zip embeddings).map
      (fun p => { text := p.1.text, index := p.1.index,
                  token_count := p.1.token_count, embedding := p.2 })

/-! ## Entity extractor (backend/ingestion/entity_extractor.py)

The Gemini call is the oracle `genResult : Except String String` (the raw
`response.text`, or the exception it raised); `json.loads` is the abstract
parameter `jsonLoads : String → Except String Json` (error = JSONDecodeError).
The two `re.sub` calls that peel markdown code fences are modelled
concretely below. -/

/-- The code-fence prefixes matched by the regex "three backticks, j, s, o,
optional n, optional newline", longest (greedy) first. -/
def fencePatterns : List (List Char) :=
  ["```json\n".toList, "```json".toList, "```jso\n".toList, "```jso".toList]

/-- If one of the fence patterns is a prefix of `cs`, drop it (preferring
the longest, as the greedy regex does). -/
def dropFence (cs : List Char) : Option (List Char) :=
  (fencePatterns.filterMap
    (fun p => if p.isPrefixOf cs then some (cs.drop p.length) else none)).head?

/-- One left-to-right pass replacing every non-overlapping fence match by
nothing, with fuel for termination (every step consumes at least one
character, so `cs.length` fuel suffices). -/
def stripFenceAux : Nat → List Char → List Char
  | 0, cs => cs
  | _ + 1, [] => []
  | fuel + 1, c :: rest =>
    match dropFence (c :: rest) with
    | some rest2 => stripFenceAux fuel rest2
    | none => c :: stripFenceAux fuel rest

/-- re.sub(r"```json?\n?", "", s). -/
def stripFences (s : String) : String :=
  String.mk (stripFenceAux s.length s.toList)

/-- re.sub(r"```\n?$", "", s): remove one trailing code fence, where `$`
also matches just before a final newline. -/
def stripTrailingFence (s : String) : String :=
  if pyEndsWith s "```\n\n" then pyDropRight s 5 ++ "\n"
  else if pyEndsWith s "```\n" then pyDropRight s 4
  else if pyEndsWith s "```" then pyDropRight s 3
  else s

/-- The markdown-fence cleanup applied when the response starts with a
code fence. -/
def stripMarkdown (s : String) : String :=
  stripTrailingFence (stripFences s)

/-- The all-empty entity bundle. -/
def emptyBundle : List (String × Json) :=
  [("authors", Json.arr []), ("topics", Json.arr []), ("technologies", Json.arr []),
   ("companies", Json.arr []), ("concepts", Json.arr [])]

/-- The model response after `.strip()` and the conditional markdown-fence
removal, exactly as handed to json.loads. -/
def cleanedResponse (raw : String) : String :=
  if pyStartsWith (pyStrip raw) "```" then stripMarkdown (pyStrip raw)
  else pyStrip raw

/-- entity_extractor.extract_entities.  Empty text short-circuits to the
empty bundle.  Otherwise the model response is stripped, de-fenced and
parsed; any exception on the way — the model call itself, JSONDecodeError,
the AttributeError of `.get` on a non-dict, or the TypeError of `len` on a
non-sized value in the logging line — is caught and the empty bundle
returned.  A successfully parsed JSON object is returned as-is. -/
def extract_entities (jsonLoads : String → Except String Json)
    (genResult : Except String String) (text : String) (title : Option String) :
    List (String × Json) :=
  if pyStrip text = "" then emptyBundle
  else
    match genResult with
    | Except.error _ => emptyBundle
    | Except.ok raw =>
      match jsonLoads (cleanedResponse raw) with
      | Except.error _ => emptyBundle
      | Except.ok v =>
        match v with
        | Json.obj fields =>
          -- logging accesses len(entities.get('topics', [])) and
          -- len(entities.get('technologies', [])) before returning
          match pyLen ((dictGet fields "topics").getD (Json.arr [])),
                pyLen ((dictGet fields "technologies").getD (Json.arr [])) with
          | Except.ok _, Except.ok _ => fields
          | _, _ => emptyBundle
        | _ => emptyBundle

/-! ## Vector store (backend/storage/qdrant_store.py)

The Qdrant server is modelled by the list of points it holds; `uuid.uuid4`
is the abstract identifier supply `ids : Nat → String`, indexed by the
order in which the loop draws identifiers.  Calls that cross the wire are
recorded as effects so that "no call happens" is expressible. -/

/-- One observable external side effect of the ingestion pipeline. -/
inductive Effect where
  | chunkCall : Effect
  | initCollection : Effect
  | vectorUpsert (n : Nat) : Effect
  | extractCall : Effect
  | graphWriteCall : Effect
deriving DecidableEq

/-- A stored point: random id, vector, and payload map. -/
structure Point (V : Type) where
  id : String
  vector : V
  payload : List (String × Json)

/-- The points built by qdrant_store.store_chunks: one per chunk, with a
fresh identifier and the chunk text and index merged with the shared
document metadata (`\x7b"text": ..., "index": ..., **metadata\x7d`). -/
def mkPoints {V : Type} (ids : Nat → String) (chunks : List (Chunk V))
    (metadata : List (String × Json)) : List (Point V) :=
  chunks.enum.map
    (fun p =>
      { id := ids p.1, vector := p.2.embedding,
        payload := applyProps
          [("text", Json.str p.2.text), ("index", Json.num p.2.index)] metadata })

/-- qdrant_store.store_chunks: empty input returns 0 without touching the
store; otherwise all points are upserted in one batch call and their number
returned.  The result is (count, new store contents, wire calls made). -/
def store_chunks {V : Type} (ids : Nat → String) (chunks : List (Chunk V))
    (metadata : List (String × Json)) (store : List (Point V)) :
    Nat × List (Point V) × List Effect :=
  if chunks.isEmpty then (0, store, [])
  else
    let points := mkPoints ids chunks metadata
    (points.length, store ++ points, [Effect.vectorUpsert points.length])

/-! ## Graph store (backend/storage/neo4j_store.py)

The Neo4j database is modelled as a property graph state; the Cypher
queries issued by create_entity and create_relationship are embedded by
their MERGE/MATCH/SET semantics:
  MERGE (n:T \x7bname: $name\x7d) matches every node with label T and that name
  and creates one (with the name property) only when none matches;
  SET n += $props overlays the property map onto each matched node;
  MATCH ... MATCH ... MERGE (a)-[r:R]->(b) creates the edge only when both
  endpoint matches succeed and no such edge exists yet (zero rows — hence
  no write and no exception — otherwise). -/

/-- A graph node: label, name, and property map (all property values that
the code ever writes are strings). -/
structure GNode where
  etype : String
  name : String
  props : List (String × String)
deriving DecidableEq

/-- A typed directed edge, identified by its endpoints' labels and names
and the relationship type. -/
structure GEdge where
  fromType : String
  fromName : String
  rel : String
  toType : String
  toName : String
deriving DecidableEq

/-- The graph state. -/
structure Graph where
  nodes : List GNode
  edges : List GEdge
deriving DecidableEq

/-- ENTITY_TYPES of neo4j_store.py. -/
def ENTITY_TYPES : List String :=
  ["Article", "Author", "Topic", "Technology", "Company", "Concept"]

/-- Does the graph hold a node with this label and name? -/
def hasNode (g : Graph) (t n : String) : Bool :=
  g.nodes.any (fun nd => nd.etype = t ∧ nd.name = n)

/-- MERGE (n:t \x7bname: n\x7d) SET n += props: overlay the props onto every
matching node, or append a fresh node (whose MERGE-created property map is
\x7bname: n\x7d) when none matches. -/
def mergeEntity (t n : String) (props : List (String × String)) (g : Graph) : Graph :=
  if hasNode g t n then
    let updated := g.nodes.map
      (fun nd => if nd.etype = t ∧ nd.name = n
                 then { nd with props := applyProps nd.props props }
                 else nd)
    { g with nodes := updated }
  else
    let fresh : GNode := { etype := t, name := n, props := applyProps [("name", n)] props }
    { g with nodes := g.nodes ++ [fresh] }

/-- neo4j_store.create_entity: reject invalid entity types with a
ValueError, set props["name"] = name, and run the MERGE/SET query. -/
def create_entity (entity_type name : String) (properties : List (String × String))
    (g : Graph) : Except String Graph :=
  if entity_type ∈ ENTITY_TYPES then
    Except.ok (mergeEntity entity_type name (updList properties "name" name) g)
  else
    Except.error ("Invalid entity type: " ++ entity_type)

/-- neo4j_store.create_relationship: MATCH both endpoints, then MERGE the
edge.  When either endpoint is missing the query produces zero rows, so
nothing is written and no exception is raised; when the edge already exists
MERGE matches it and writes nothing. -/
def create_relationship (from_type from_name relationship to_type to_name : String)
    (g : Graph) : Graph :=
  if hasNode g from_type from_name ∧ hasNode g to_type to_name then
    let e : GEdge := { fromType := from_type, fromName := from_name,
                       rel := relationship, toType := to_type, toName := to_name }
    if e ∈ g.edges then g else { g with edges := g.edges ++ [e] }
  else g

/-- The (label, name) natural key of a node. -/
def nodeKey (nd : GNode) : String × String := (nd.etype, nd.name)

/-- Well-formedness invariant of the graph: no two nodes share a
(label, name) pair. -/
def wfGraph (g : Graph) : Prop :=
  (g.nodes.map nodeKey).Nodup

/-- The number of nodes with a given label and name. -/
def countNodes (g : Graph) (t n : String) : Nat :=
  (g.nodes.filter (fun nd => nd.etype = t ∧ nd.name = n)).length

/-- The number of copies of an edge in the graph. -/
def countEdge (g : Graph) (e : GEdge) : Nat :=
  (g.edges.filter (fun e2 => e2 = e)).length

/-- The node with a given label and name, if any. -/
def findNode (g : Graph) (t n : String) : Option GNode :=
  g.nodes.find? (fun nd => nd.etype = t ∧ nd.name = n)

/-- The arguments of one create_entity call. -/
structure EntityCall where
  etype : String
  name : String
  props : List (String × String)

/-- A sequence of create_entity calls run against the graph; a call that
raises (invalid entity type) leaves the graph as it was. -/
def runCreates (calls : List EntityCall) (g : Graph) : Graph :=
  calls.foldl
    (fun acc c =>
      match create_entity c.etype c.name c.props acc with
      | Except.ok g2 => g2
      | Except.error _ => acc) g

/-- Occurrences of a key in a key list. -/
def countKey (keys : List (String × String)) (kk : String × String) : Nat :=
  (keys.filter (fun k2 => k2 = kk)).length

/-! ## Ingestion pipeline (backend/ingestion/pipeline.py)

The scraper is the oracle `scraped` (scrape_url returns a status dict; a
non-success status is the error case), the Neo4j write
store_article_with_entities is the oracle `graphWrite`, and the two stores
are threaded as explicit state.  store_article_with_entities is a loop of
separately auto-committed create_entity/create_relationship calls, so it
is not transactional: when it raises partway through, the entity and edge
writes made before the exception persist.  The oracle therefore returns
the graph state its writes left behind — possibly only partially updated —
together with the exception it raised, if any. -/

/-- The result payload of a successful scrape. -/
structure ScrapeSuccess where
  url : String
  title : Option String
  text : String
  domain : String
  scraped_at : String

/-- The dict returned by ingest_url: either
\x7bstatus: "error", error: e, result: null\x7d or
\x7bstatus: "success", url, title, chunk_count, entities\x7d. -/
inductive IngestResult where
  | failure (error : String) : IngestResult
  | success (url : String) (title : Option String) (chunk_count : Nat)
      (entities : List (String × Json)) : IngestResult

/-- The two backing stores. -/
structure Stores (V : Type) where
  points : List (Point V)
  graph : Graph

/-- The article_data dict assembled by the pipeline for the graph write.
The five entity fields keep whatever JSON value `entities.get(key, [])`
produced. -/
structure ArticleData where
  title : Option String
  source_url : String
  domain : String
  authors : Json
  topics : Json
  technologies : Json
  companies : Json
  concepts : Json

/-- A Python optional string as a JSON payload value. -/
def optStrJson : Option String → Json
  | some s => Json.str s
  | none => Json.null

/-- The shared document metadata attached to every stored chunk. -/
def docMetadata (result : ScrapeSuccess) : List (String × Json) :=
  [("source_url", Json.str result.url), ("title", optStrJson result.title),
   ("domain", Json.str result.domain), ("scraped_at", Json.str result.scraped_at)]

/-- The article_data dict handed to store_article_with_entities, with the
five entity lists read from the extractor's result via `.get(key, [])`. -/
def articleDataOf (result : ScrapeSuccess) (entities : List (String × Json)) : ArticleData :=
  { title := result.title, source_url := result.url, domain := result.domain,
    authors := (dictGet entities "authors").getD (Json.arr []),
    topics := (dictGet entities "topics").getD (Json.arr []),
    technologies := (dictGet entities "technologies").getD (Json.arr []),
    companies := (dictGet entities "companies").getD (Json.arr []),
    concepts := (dictGet entities "concepts").getD (Json.arr []) }

/-- pipeline.ingest_url.  Fails fast on scrape error and on zero chunks;
then stores the chunks, extracts entities best-effort, attempts the graph
write inside try/except, and returns the terminal success payload.
`graphWrite article_data g` yields the graph state the (auto-committed,
non-transactional) write left behind together with `some e` when it raised
`e`; the except-branch only logs that exception, so the pipeline keeps the
left-behind state as-is — nothing is rolled back — and the returned
payload is the same either way. -/
def ingest_url {V : Type}
    (scraped : Except String ScrapeSuccess)
    (chunkerFn : String → List SemChunk)
    (encode : String → V)
    (ids : Nat → String)
    (jsonLoads : String → Except String Json)
    (genResult : Except String String)
    (graphWrite : ArticleData → Graph → Graph × Option String)
    (st : Stores V) : IngestResult × Stores V × List Effect :=
  match scraped with
  | Except.error e => (IngestResult.failure ("Scraping failed: " ++ e), st, [])
  | Except.ok result =>
    let chunks := chunk_and_embed chunkerFn encode result.text
    if chunks.isEmpty then
      (IngestResult.failure "No chunks created from the document", st, [Effect.chunkCall])
    else
      let stored := store_chunks ids chunks (docMetadata result) st.points
      let entities := extract_entities jsonLoads genResult result.text result.title
      let written := graphWrite (articleDataOf result entities) st.graph
      (IngestResult.success result.url result.title stored.1 entities,
       { points := stored.2.1, graph := written.1 },
       Effect.chunkCall :: Effect.initCollection ::
         (stored.2.2 ++ [Effect.extractCall, Effect.graphWriteCall]))

/-! ## Hybrid search (backend/tools/retrieval_tool.py)

embed_query and search_similar may raise (oracle parameters returning
Except), as may each of the two Cypher queries of the graph pass; the
second graph query runs only when the first one succeeded (both live in
one try block).  Scores arrive already rendered to three decimals (float
formatting is external to the model). -/

/-- One vector search hit as consumed by the rendering loop. -/
structure VecHit where
  title : Option String
  score : String
  text : String

/-- A connected-entity record inside an article row: \x7btype, name, rel\x7d. -/
structure GraphEntityRef where
  etype : String
  name : String
  rel : String

/-- One row of the articles query: title, url (null is modelled by "",
matching the falsiness test in the code) and connected entities. -/
structure ArticleRec where
  title : String
  url : String
  entities : List GraphEntityRef

/-- One row of the entity-relationships query. -/
structure ConceptRec where
  entity_type : String
  entity_name : String
  relationship : String
  related_type : String
  related_name : String

/-- "-" * 50. -/
def dashRule : String := String.mk (List.replicate 50 '-')

/-- "=" * 50. -/
def eqRule : String := String.mk (List.replicate 50 '=')

/-- One rendered vector hit (1-based position). -/
def renderVecHit (i : Nat) (r : VecHit) : String :=
  "[" ++ toString i ++ "] Source: " ++ r.title.getD "Unknown" ++ "\n"
  ++ "    Similarity Score: " ++ r.score ++ "\n"
  ++ "    Content: " ++ pySlice r.text 400 ++ "...\n\n"

/-- The rendered vector hits, enumerated from 1. -/
def renderVecHits (hits : List VecHit) : String :=
  String.join (hits.enum.map (fun p => renderVecHit (p.1 + 1) p.2))

/-- The vector-search section of the report. -/
def vectorSection (vec : Except String (List VecHit)) : String :=
  "VECTOR DATABASE RESULTS (Semantic Search)\n" ++ dashRule ++ "\n"
  ++ match vec with
     | Except.ok hits =>
       if hits.isEmpty then "No semantically similar documents found.\n\n"
       else renderVecHits hits
     | Except.error e => "Vector search encountered an error: " ++ e ++ "\n\n"

/-- "name (type)" for a connected entity. -/
def renderEntityRef (e : GraphEntityRef) : String := e.name ++ " (" ++ e.etype ++ ")"

/-- One rendered article row. -/
def renderArticle (r : ArticleRec) : String :=
  "\n• " ++ r.title ++ "\n"
  ++ (if r.url ≠ "" then "  URL: " ++ r.url ++ "\n" else "")
  ++ (if r.entities.isEmpty then ""
      else "  Connected Entities: "
           ++ String.intercalate ", " ((r.entities.take 5).map renderEntityRef) ++ "\n")

/-- The related-articles block. -/
def renderArticles (recs : List ArticleRec) : String :=
  "\n**Related Articles from Knowledge Graph:**\n" ++ String.join (recs.map renderArticle)

/-- One rendered entity-relationship row. -/
def renderConcept (r : ConceptRec) : String :=
  "  • (" ++ r.entity_type ++ ") " ++ r.entity_name ++ " "
  ++ "-[" ++ r.relationship ++ "]-> "
  ++ "(" ++ r.related_type ++ ") " ++ r.related_name ++ "\n"

/-- The entity-relationships block. -/
def renderConcepts (recs : List ConceptRec) : String :=
  "\n**Entity Relationships:**\n" ++ String.join (recs.map renderConcept)

/-- The knowledge-graph section of the report.  The concepts query result
is ignored when the articles query raised, because the exception skipped
it. -/
def graphSection (art : Except String (List ArticleRec))
    (con : Except String (List ConceptRec)) : String :=
  "\nKNOWLEDGE GRAPH RESULTS (Entity Relationships)\n" ++ dashRule ++ "\n"
  ++ match art with
     | Except.error e => "Knowledge graph search encountered an error: " ++ e ++ "\n"
     | Except.ok recs =>
       (if recs.isEmpty then "No related articles found in knowledge graph.\n"
        else renderArticles recs)
       ++ match con with
          | Except.error e => "Knowledge graph search encountered an error: " ++ e ++ "\n"
          | Except.ok crs => if crs.isEmpty then "" else renderConcepts crs

/-- The has_results flag at the end of the function. -/
def hasAnyResults (vec : Except String (List VecHit))
    (art : Except String (List ArticleRec))
    (con : Except String (List ConceptRec)) : Bool :=
  (match vec with
   | Except.ok hits => !hits.isEmpty
   | Except.error _ => false)
  || (match art with
      | Except.error _ => false
      | Except.ok recs =>
        !recs.isEmpty
        || (match con with
            | Except.ok crs => !crs.isEmpty
            | Except.error _ => false))

/-- The trailing summary. -/
def summarySection (found : Bool) : String :=
  "\n" ++ eqRule ++ "\n"
  ++ if found then
       "Hybrid search completed successfully. Results from both vector DB and knowledge graph are shown above.\n"
     else
       "No results found in either vector database or knowledge graph.\n"

/-- query_terms: whitespace-split the query, strip each term, keep terms
longer than 3 characters. -/
def queryTerms (query : String) : List String :=
  (((splitWs query.toList []).map (fun cs => pyStrip (String.mk cs))).filter
    (fun t => 3 < t.length))

/-- The vector pass: embed the query, then search; the first exception
wins (both calls sit in one try block). -/
def vectorPass {V : Type} (embedQ : String → Except String V)
    (searchSim : V → Nat → Except String (List VecHit))
    (query : String) (lim : Nat) : Except String (List VecHit) :=
  match embedQ query with
  | Except.error e => Except.error e
  | Except.ok qv => searchSim qv lim

/-- retrieval_tool.hybrid_search: run the vector pass and the graph pass,
each inside its own try/except, and concatenate header, both sections and
the summary. -/
def hybrid_search {V : Type} (embedQ : String → Except String V)
    (searchSim : V → Nat → Except String (List VecHit))
    (artQ : List String → Nat → Except String (List ArticleRec))
    (conQ : List String → Except String (List ConceptRec))
    (query : String) (lim : Nat) : String :=
  let vec := vectorPass embedQ searchSim query lim
  let terms := queryTerms query
  let art := artQ terms lim
  let con := conQ terms
  "HYBRID SEARCH RESULTS\n\n"
  ++ vectorSection vec
  ++ graphSection art con
  ++ summarySection (hasAnyResults vec art con)

/-! ## Claims -/

/-! ### Dictionary lemmas -/

theorem map_upd_of_not_any {β : Type} (t : List (String × β)) (k : String) (v : β)
    (ht : ¬ (t.any fun q => decide (q.1 = k)) = true) :
    List.map (fun q => if q.1 = k then (k, v) else q) t = t := by
  induction t with
  | nil => rfl
  | cons q s ihs =>
    simp only [List.any_cons, Bool.or_eq_true, not_or] at ht
    rw [List.map_cons, if_neg (by simpa using ht.1),
      ihs (by simpa using ht.2)]

theorem dictGet_updList {β : Type} (l : List (String × β)) (k k' : String) (v : β) :
    dictGet (updList l k v) k' = if k' = k then some v else dictGet l k' := by
  induction l with
  | nil => simp [updList, dictGet]
  | cons p t ih =>
    by_cases hp : p.1 = k
    · have hany : ((p :: t).any fun q => decide (q.1 = k)) = true := by
        simp [List.any_cons, hp]
      rw [updList, if_pos hany, List.map_cons, if_pos hp]
      by_cases hk' : k' = k
      · subst hk'
        simp [dictGet]
      · rw [dictGet, if_neg hk', if_neg hk',
          dictGet, if_neg (fun h : k' = p.1 => hk' (h.trans hp))]
        by_cases ht : (t.any fun q => decide (q.1 = k)) = true
        · have hmap : List.map (fun q => if q.1 = k then (k, v) else q) t = updList t k v := by
            rw [updList, if_pos ht]
          rw [hmap, ih, if_neg hk']
        · rw [map_upd_of_not_any t k v ht]
    · by_cases ht : (t.any fun q => decide (q.1 = k)) = true
      · have hany : ((p :: t).any fun q => decide (q.1 = k)) = true := by
          simp [List.any_cons, ht]
        rw [updList, if_pos hany, List.map_cons, if_neg hp]
        have hmap : List.map (fun q => if q.1 = k then (k, v) else q) t = updList t k v := by
          rw [updList, if_pos ht]
        rw [hmap]
        by_cases hk' : k' = p.1
        · rw [dictGet, if_pos hk', if_neg (fun h : k' = k => hp (hk'.symm.trans h)),
            dictGet, if_pos hk']
        · rw [dictGet, if_neg hk', ih]
          by_cases hk : k' = k
          · rw [if_pos hk, if_pos hk]
          · rw [if_neg hk, if_neg hk, dictGet, if_neg hk']
      · have hany : ¬ ((p :: t).any fun q => decide (q.1 = k)) = true := by
          simp [List.any_cons, hp, ht]
        rw [updList, if_neg hany, List.cons_append]
        have htail : t ++ [(k, v)] = updList t k v := by
          rw [updList, if_neg ht]
        rw [htail]
        by_cases hk' : k' = p.1
        · rw [dictGet, if_pos hk', if_neg (fun h : k' = k => hp (hk'.symm.trans h)),
            dictGet, if_pos hk']
        · rw [dictGet, if_neg hk', ih]
          by_cases hk : k' = k
          · rw [if_pos hk, if_pos hk]
          · rw [if_neg hk, if_neg hk, dictGet, if_neg hk']

theorem dictGet_applyProps_notmem {β : Type} (upd : List (String × β)) :
    ∀ (base : List (String × β)) (k : String), (∀ kv ∈ upd, kv.1 ≠ k) →
    dictGet (applyProps base upd) k = dictGet base k := by
  induction upd with
  | nil => intro base k _; rfl
  | cons kv t ih =>
    intro base k h
    simp only [applyProps, List.foldl_cons]
    have tail := ih (updList base kv.1 kv.2) k (fun kv2 h2 => h kv2 (List.mem_cons_of_mem kv h2))
    simp only [applyProps] at tail
    rw [tail, dictGet_updList, if_neg (fun hk => h kv (List.mem_cons_self kv t) hk.symm)]

theorem dictGet_applyProps_mem {β : Type} (upd : List (String × β)) :
    ∀ (base : List (String × β)) (k : String) (v : β),
    (upd.map Prod.fst).Nodup → (k, v) ∈ upd →
    dictGet (applyProps base upd) k = some v := by
  induction upd with
  | nil => intro base k v _ hmem; simp at hmem
  | cons kv t ih =>
    intro base k v hnd hmem
    simp only [List.map_cons, List.nodup_cons] at hnd
    rcases List.mem_cons.mp hmem with heq | htail
    · subst heq
      simp only [applyProps, List.foldl_cons]
      have hrest : ∀ kv2 ∈ t, kv2.1 ≠ k := by
        intro kv2 h2 hk
        exact hnd.1 (List.mem_map.mpr ⟨kv2, h2, hk⟩)
      have := dictGet_applyProps_notmem t (updList base k v) k hrest
      simp only [applyProps] at this
      rw [this, dictGet_updList, if_pos rfl]
    · simp only [applyProps, List.foldl_cons]
      exact ih (updList base kv.1 kv.2) k v hnd.2 htail


/-- Claim C7: for every input string, if it is empty or whitespace-only
then `chunk_text` returns the empty sequence (not an error — the function
is total); and the returned chunk records carry index values that are
exactly 0..n-1 in order, with no gaps or repeats, where n is the number of
chunks produced. -/
theorem chunk_text_empty_and_indices (chunkerFn : String → List SemChunk) (text : String) :
    (pyStrip text = "" → chunk_text chunkerFn text = []) ∧
    (chunk_text chunkerFn text).map RawChunk.index
      = List.range (chunk_text chunkerFn text).length := by
  refine ⟨fun h => by simp [chunk_text, h], ?_⟩
  by_cases h : pyStrip text = ""
  · simp [chunk_text, h]
  · simp only [chunk_text, if_neg h, List.map_map, List.length_map]
    have heq : (RawChunk.index ∘ fun p : Nat × SemChunk =>
        ({ text := p.2.text, index := p.1, token_count := p.2.token_count } : RawChunk))
        = Prod.fst := rfl
    rw [heq]
    simp

/-- Witness for C7 at concrete inputs: whitespace-only text chunks to `[]`,
and a two-chunk document gets indices `[0, 1]`. -/
theorem chunk_text_empty_and_indices_witness :
    chunk_text (fun _ => [⟨"a", none⟩, ⟨"b", some 2⟩]) "  " = [] ∧
    (chunk_text (fun _ => [⟨"a", none⟩, ⟨"b", some 2⟩]) "hello world").map RawChunk.index
      = [0, 1] :=
  ⟨(chunk_text_empty_and_indices (fun _ => [⟨"a", none⟩, ⟨"b", some 2⟩]) "  ").1 (by decide),
   ((chunk_text_empty_and_indices (fun _ => [⟨"a", none⟩, ⟨"b", some 2⟩]) "hello world").2).trans
     (by decide)⟩

/-- Claim C8: `embed_documents` encodes its text with the literal prefix
"search_document: " prepended and `embed_query` with "search_query: "
prepended (the encoder being the abstract black-box function `encode`);
consequently, whenever the encoder distinguishes distinct inputs, the query
embedding of a raw text differs from its document embedding. -/
theorem embed_prefixes {V : Type} (encode : String → V) (q : String)
    (hinj : Function.Injective encode) :
    embed_query encode q = encode ("search_query: " ++ q) ∧
    embed_documents encode (EmbedInput.str q)
      = EmbedResult.single (encode ("search_document: " ++ q)) ∧
    embed_documents encode (EmbedInput.list [q])
      = EmbedResult.single (encode ("search_document: " ++ q)) ∧
    firstDoc (embed_documents encode (EmbedInput.list [q]))
      ≠ some (embed_query encode q) := by
  refine ⟨rfl, rfl, rfl, ?_⟩
  intro h
  have h2 : encode ("search_document: " ++ q) = encode ("search_query: " ++ q) :=
    Option.some.inj h
  have h3 := congrArg String.length (hinj h2)
  simp only [String.length_append] at h3
  have h17 : "search_document: ".length = 17 := rfl
  have h14 : "search_query: ".length = 14 := rfl
  rw [h17, h14] at h3
  omega


/-- Witness for C8 with the identity encoder and the raw text "x". -/
theorem embed_prefixes_witness :
    firstDoc (embed_documents (fun s : String => s) (EmbedInput.list ["x"]))
      ≠ some (embed_query (fun s : String => s) "x") :=
  (embed_prefixes (fun s : String => s) "x" (fun _ _ h => h)).2.2.2

/-- Rewrapping the result of `embed_documents` into a list of vectors (as
`chunk_and_embed` does) always yields exactly the per-text encodings. -/
theorem wrap_embed_documents {V : Type} (encode : String → V) (ts : List String) :
    (match embed_documents encode (EmbedInput.list ts) with
     | EmbedResult.single v => [v]
     | EmbedResult.multiple vs => vs)
      = ts.map (fun t => encode ("search_document: " ++ t)) := by
  simp only [embed_documents, List.map_map]
  have hcomp : (encode ∘ fun text => "search_document: " ++ text)
      = fun t => encode ("search_document: " ++ t) := rfl
  rw [hcomp]
  rcases hl : ts.map (fun t => encode ("search_document: " ++ t)) with _ | ⟨a, _ | ⟨b, l2⟩⟩
  · rfl
  · rfl
  · rfl

/-- `chunk_and_embed` pairs every chunk with the document-prefixed encoding
of its own text, positionally. -/
theorem chunk_and_embed_eq {V : Type} (chunkerFn : String → List SemChunk)
    (encode : String → V) (text : String) :
    chunk_and_embed chunkerFn encode text
      = (chunk_text chunkerFn text).map
          (fun rc => { text := rc.text, index := rc.index, token_count := rc.token_count,
                       embedding := encode ("search_document: " ++ rc.text) }) := by
  unfold chunk_and_embed
  by_cases he : (chunk_text chunkerFn text).isEmpty = true
  · rw [if_pos he, List.isEmpty_iff.mp he]
    rfl
  · rw [if_neg he]
    simp only [wrap_embed_documents encode ((chunk_text chunkerFn text).map (fun c => c.text)),
      List.map_map]
    have hzip : (chunk_text chunkerFn text).zip
        ((chunk_text chunkerFn text).map
          ((fun t => encode ("search_document: " ++ t)) ∘ fun c => c.text))
        = (chunk_text chunkerFn text).map
            (fun c => (c, encode ("search_document: " ++ c.text))) := by
      have := List.zip_map' (fun c : RawChunk => c)
        ((fun t => encode ("search_document: " ++ t)) ∘ fun c : RawChunk => c.text)
        (chunk_text chunkerFn text)
      simpa using this
    rw [hzip, List.map_map]
    rfl

/-- Claim C10: `embed_documents` returns a single flat vector when its
input is a bare string or a one-element list, and a list of vectors
otherwise; `chunk_and_embed` compensates by rewrapping in the single-chunk
case, so every returned chunk record's embedding field is the full vector
of its own text. -/
theorem embed_shape_and_chunk_embed {V : Type} (encode : String → V)
    (chunkerFn : String → List SemChunk) (text : String) :
    (∀ s, embed_documents encode (EmbedInput.str s)
        = EmbedResult.single (encode ("search_document: " ++ s))) ∧
    (∀ t, embed_documents encode (EmbedInput.list [t])
        = EmbedResult.single (encode ("search_document: " ++ t))) ∧
    (∀ ts : List String, ts.length ≠ 1 →
        embed_documents encode (EmbedInput.list ts)
          = EmbedResult.multiple (ts.map (fun t => encode ("search_document: " ++ t)))) ∧
    (∀ c ∈ chunk_and_embed chunkerFn encode text,
        c.embedding = encode ("search_document: " ++ c.text)) := by
  refine ⟨fun s => rfl, fun t => rfl, ?_, ?_⟩
  · intro ts hlen
    simp only [embed_documents, List.map_map]
    have hcomp : (encode ∘ fun t => "search_document: " ++ t)
        = fun t => encode ("search_document: " ++ t) := rfl
    rw [hcomp]
    rcases hl : ts.map (fun t => encode ("search_document: " ++ t)) with _ | ⟨a, _ | ⟨b, l2⟩⟩
    · rfl
    · exfalso
      apply hlen
      have := congrArg List.length hl
      simpa using this
    · rfl
  · intro c hc
    rw [chunk_and_embed_eq] at hc
    rcases List.mem_map.mp hc with ⟨rc, _, hrc⟩
    rw [← hrc]

/-- Witness for C10: a two-text batch comes back as a list of vectors, and
a concrete one-chunk document's record carries its full vector. -/
theorem embed_shape_and_chunk_embed_witness :
    embed_documents (fun s : String => s) (EmbedInput.list ["a", "b"])
      = EmbedResult.multiple ["search_document: a", "search_document: b"] ∧
    ({ text := "t", index := 0, token_count := none,
       embedding := "search_document: t" } : Chunk String)
      ∈ chunk_and_embed (fun _ => [⟨"t", none⟩]) (fun s : String => s) "doc" ∧
    (({ text := "t", index := 0, token_count := none,
        embedding := "search_document: t" } : Chunk String)).embedding
      = "search_document: " ++ "t" := by
  refine ⟨?_, by decide, ?_⟩
  · exact ((embed_shape_and_chunk_embed (fun s : String => s) (fun _ => []) "").2.2.1
      ["a", "b"] (by decide)).trans (by decide)
  · exact (embed_shape_and_chunk_embed (fun s : String => s)
      (fun _ => [⟨"t", none⟩]) "doc").2.2.2 _ (by decide)

/-- The second component of an enumerated entry belongs to the list. -/
theorem snd_mem_of_mem_enum {α : Type} {p : Nat × α} {l : List α}
    (h : p ∈ l.enum) : p.2 ∈ l := by
  rw [List.enum_eq_zip_range] at h
  exact (List.of_mem_zip h).2

/-- Claim C9: `store_chunks` assigns a fresh identifier (drawn injectively
from the uuid supply) to each chunk, attaches every metadata key to every
stored point's payload alongside the chunk's text and index, upserts all
points in one batch call, and returns the number of chunks stored; the
empty chunk list performs no upsert and returns 0. -/
theorem store_chunks_spec {V : Type} (ids : Nat → String) (chunks : List (Chunk V))
    (metadata : List (String × Json)) (store : List (Point V))
    (hids : Function.Injective ids)
    (hnd : (metadata.map Prod.fst).Nodup)
    (htext : ∀ kv ∈ metadata, kv.1 ≠ "text")
    (hindex : ∀ kv ∈ metadata, kv.1 ≠ "index") :
    (chunks = [] → store_chunks ids chunks metadata store = (0, store, [])) ∧
    (chunks ≠ [] →
      store_chunks ids chunks metadata store
        = (chunks.length, store ++ mkPoints ids chunks metadata,
           [Effect.vectorUpsert chunks.length])) ∧
    (mkPoints ids chunks metadata).map Point.id = (List.range chunks.length).map ids ∧
    ((mkPoints ids chunks metadata).map Point.id).Nodup ∧
    (∀ p ∈ mkPoints ids chunks metadata,
      (∃ c ∈ chunks, p.vector = c.embedding ∧
        dictGet p.payload "text" = some (Json.str c.text) ∧
        dictGet p.payload "index" = some (Json.num c.index)) ∧
      (∀ kv ∈ metadata, dictGet p.payload kv.1 = some kv.2)) := by
  have hlen : (mkPoints ids chunks metadata).length = chunks.length := by
    simp [mkPoints]
  have hidsmap : (mkPoints ids chunks metadata).map Point.id
      = (List.range chunks.length).map ids := by
    simp only [mkPoints, List.map_map]
    have hcomp : (Point.id ∘ fun p : Nat × Chunk V =>
        ({ id := ids p.1, vector := p.2.embedding,
           payload := applyProps
             [("text", Json.str p.2.text), ("index", Json.num p.2.index)] metadata } : Point V))
        = ids ∘ Prod.fst := rfl
    rw [hcomp, ← List.map_map]
    simp
  refine ⟨fun h => by simp [store_chunks, h], ?_, hidsmap, ?_, ?_⟩
  · intro h
    have hne : ¬ chunks.isEmpty = true := by
      simpa [List.isEmpty_iff] using h
    rw [store_chunks, if_neg hne]
    dsimp only
    rw [hlen]
  · rw [hidsmap]
    exact List.Nodup.map hids (List.nodup_range _)
  · intro p hp
    simp only [mkPoints] at hp
    rcases List.mem_map.mp hp with ⟨q, hq, hpq⟩
    constructor
    · refine ⟨q.2, snd_mem_of_mem_enum hq, ?_, ?_, ?_⟩
      · rw [← hpq]
      · rw [← hpq]
        exact (dictGet_applyProps_notmem metadata _ "text" htext).trans rfl
      · rw [← hpq]
        exact (dictGet_applyProps_notmem metadata _ "index" hindex).trans rfl
    · intro kv hkv
      rw [← hpq]
      exact dictGet_applyProps_mem metadata _ kv.1 kv.2 hnd hkv

/-- Witness for C9 at a concrete chunk list and the pipeline's metadata
shape. -/
theorem store_chunks_spec_witness :
    store_chunks (fun n => String.mk (List.replicate n 'a'))
        [({ text := "c", index := 0, token_count := none, embedding := 7 } : Chunk Nat)]
        [("source_url", Json.str "u"), ("title", Json.str "T"),
         ("domain", Json.str "d"), ("scraped_at", Json.str "now")] []
      = (1, mkPoints (fun n => String.mk (List.replicate n 'a'))
             [({ text := "c", index := 0, token_count := none, embedding := 7 } : Chunk Nat)]
             [("source_url", Json.str "u"), ("title", Json.str "T"),
              ("domain", Json.str "d"), ("scraped_at", Json.str "now")],
         [Effect.vectorUpsert 1]) := by
  have hinj : Function.Injective (fun n : Nat => String.mk (List.replicate n 'a')) := by
    intro a b h
    simpa using congrArg (fun s : String => s.data.length) h
  have := (store_chunks_spec (fun n => String.mk (List.replicate n 'a'))
      [({ text := "c", index := 0, token_count := none, embedding := 7 } : Chunk Nat)]
      [("source_url", Json.str "u"), ("title", Json.str "T"),
       ("domain", Json.str "d"), ("scraped_at", Json.str "now")] []
      hinj (by decide) (by decide) (by decide)).2.1 (by decide)
  simpa using this

/-! ### Graph-store lemmas -/

/-- The props-overlaying rewrite of `mergeEntity` does not change any
node's natural key. -/
theorem nodeKey_comp_overlay (t n : String) (props : List (String × String)) :
    (nodeKey ∘ fun nd =>
        if nd.etype = t ∧ nd.name = n
        then { nd with props := applyProps nd.props props }
        else nd)
      = nodeKey := by
  funext nd
  by_cases hc : nd.etype = t ∧ nd.name = n
  · simp only [Function.comp_apply, if_pos hc]
    rfl
  · simp only [Function.comp_apply, if_neg hc]

/-- `mergeEntity` preserves the natural-key invariant. -/
theorem wfGraph_mergeEntity (t n : String) (props : List (String × String)) (g : Graph)
    (hwf : wfGraph g) : wfGraph (mergeEntity t n props g) := by
  unfold wfGraph mergeEntity
  by_cases hh : hasNode g t n = true
  · rw [if_pos hh]
    dsimp only
    rw [List.map_map, nodeKey_comp_overlay]
    exact hwf
  · rw [if_neg hh]
    dsimp only
    rw [List.map_append]
    rw [List.nodup_append]
    refine ⟨hwf, List.nodup_singleton _, ?_⟩
    intro a ha hb
    simp only [List.map_cons, List.map_nil, List.mem_singleton] at hb
    subst hb
    rcases List.mem_map.mp ha with ⟨nd, hnd, hkey⟩
    apply hh
    unfold hasNode
    refine List.any_eq_true.mpr ⟨nd, hnd, ?_⟩
    have h1 : nd.etype = t := congrArg Prod.fst hkey
    have h2 : nd.name = n := congrArg Prod.snd hkey
    simp [h1, h2]

theorem countKey_le_one_of_nodup (keys : List (String × String))
    (kk : String × String) (hnd : keys.Nodup) : countKey keys kk ≤ 1 := by
  induction keys with
  | nil => simp [countKey]
  | cons a t ih =>
    rw [List.nodup_cons] at hnd
    unfold countKey
    rw [List.filter_cons]
    by_cases ha : a = kk
    · rw [if_pos (by simpa using ha)]
      have hnil : t.filter (fun k2 => decide (k2 = kk)) = [] := by
        rw [List.filter_eq_nil_iff]
        intro b hb hbeq
        have hb2 : b = kk := by simpa using hbeq
        exact hnd.1 (ha ▸ hb2 ▸ hb)
      rw [hnil]
      simp
    · rw [if_neg (by simpa using ha)]
      exact ih hnd.2

theorem countKey_pos_of_mem (keys : List (String × String))
    (kk : String × String) (h : kk ∈ keys) : 0 < countKey keys kk := by
  unfold countKey
  have : kk ∈ keys.filter (fun k2 => k2 = kk) :=
    List.mem_filter.mpr (by simp [h])
  exact List.length_pos.mpr (List.ne_nil_of_mem this)

/-- `countNodes` counts the occurrences of the natural key among the
node keys. -/
theorem countNodes_eq_countKey (g : Graph) (t n : String) :
    countNodes g t n = countKey (g.nodes.map nodeKey) (t, n) := by
  unfold countNodes countKey
  rw [List.filter_map, List.length_map]
  congr 1
  apply List.filter_congr
  intro nd _
  show decide (nd.etype = t ∧ nd.name = n) = decide (nodeKey nd = (t, n))
  apply decide_eq_decide.mpr
  constructor
  · intro h
    unfold nodeKey
    rw [h.1, h.2]
  · intro h
    exact ⟨congrArg Prod.fst h, congrArg Prod.snd h⟩

/-- In a well-formed graph an existing key is held by exactly one node. -/
theorem countNodes_of_wf_hasNode (g : Graph) (t n : String)
    (hwf : wfGraph g) (hh : hasNode g t n = true) : countNodes g t n = 1 := by
  rw [countNodes_eq_countKey]
  have hle : countKey (g.nodes.map nodeKey) (t, n) ≤ 1 :=
    countKey_le_one_of_nodup _ _ hwf
  have hmem : (t, n) ∈ g.nodes.map nodeKey := by
    rcases List.any_eq_true.mp hh with ⟨nd, hnd, hp⟩
    have hp2 : nd.etype = t ∧ nd.name = n := by simpa using hp
    refine List.mem_map.mpr ⟨nd, hnd, ?_⟩
    unfold nodeKey
    rw [hp2.1, hp2.2]
  have hpos := countKey_pos_of_mem _ _ hmem
  omega

/-- After `mergeEntity` on a well-formed graph there is exactly one node
with the merged key. -/
theorem countNodes_mergeEntity_self (t n : String) (props : List (String × String))
    (g : Graph) (hwf : wfGraph g) :
    countNodes (mergeEntity t n props g) t n = 1 := by
  unfold mergeEntity
  by_cases hh : hasNode g t n = true
  · rw [if_pos hh]
    unfold countNodes
    dsimp only
    rw [List.filter_map, List.length_map]
    have hpf : ((fun nd : GNode => decide (nd.etype = t ∧ nd.name = n)) ∘ fun nd =>
        if nd.etype = t ∧ nd.name = n
        then { nd with props := applyProps nd.props props }
        else nd)
        = (fun nd : GNode => decide (nd.etype = t ∧ nd.name = n)) := by
      funext x
      by_cases hc : x.etype = t ∧ x.name = n
      · simp only [Function.comp_apply, if_pos hc]
      · simp only [Function.comp_apply, if_neg hc]
    rw [hpf]
    exact countNodes_of_wf_hasNode g t n hwf hh
  · rw [if_neg hh]
    unfold countNodes
    dsimp only
    rw [List.filter_append]
    have h1 : g.nodes.filter (fun nd => nd.etype = t ∧ nd.name = n) = [] := by
      rw [List.filter_eq_nil_iff]
      intro nd hnd hp
      apply hh
      exact List.any_eq_true.mpr ⟨nd, hnd, hp⟩
    rw [h1]
    simp

/-- `mergeEntity` overlays the new props onto the node found at the key
(the first such node, which by well-formedness is the only one). -/
theorem findNode_mergeEntity (t n : String) (props : List (String × String))
    (g : Graph) (nd : GNode) (hf : findNode g t n = some nd) :
    findNode (mergeEntity t n props g) t n
      = some { nd with props := applyProps nd.props props } := by
  have hpred : nd.etype = t ∧ nd.name = n := by
    unfold findNode at hf
    have := List.find?_some hf
    simpa using this
  have hh : hasNode g t n = true := by
    unfold findNode at hf
    exact List.any_eq_true.mpr
      ⟨nd, List.mem_of_find?_eq_some hf, by simpa using hpred⟩
  unfold mergeEntity
  rw [if_pos hh]
  unfold findNode
  dsimp only
  rw [List.find?_map]
  have hpf : ((fun nd : GNode => decide (nd.etype = t ∧ nd.name = n)) ∘ fun nd =>
      if nd.etype = t ∧ nd.name = n
      then { nd with props := applyProps nd.props props }
      else nd)
      = (fun nd : GNode => decide (nd.etype = t ∧ nd.name = n)) := by
    funext x
    by_cases hc : x.etype = t ∧ x.name = n
    · simp only [Function.comp_apply, if_pos hc]
    · simp only [Function.comp_apply, if_neg hc]
  rw [hpf]
  unfold findNode at hf
  rw [hf, Option.map_some']
  rw [if_pos hpred]

/-- Claim C5: `create_relationship` between two existing entities, called
twice with identical arguments, leaves exactly one edge of that
relationship type between that ordered pair of nodes (assuming the edge
invariant — at most one such edge — held before); called when either
endpoint node does not exist it creates zero edges and raises no exception
(the function is total): the graph is returned unchanged. -/
theorem create_relationship_spec (g : Graph) (ft fn rl tt tn : String) :
    (hasNode g ft fn = true → hasNode g tt tn = true →
      countEdge g ⟨ft, fn, rl, tt, tn⟩ ≤ 1 →
      (create_relationship ft fn rl tt tn (create_relationship ft fn rl tt tn g)
         = create_relationship ft fn rl tt tn g ∧
       countEdge (create_relationship ft fn rl tt tn g) ⟨ft, fn, rl, tt, tn⟩ = 1)) ∧
    (¬ (hasNode g ft fn = true ∧ hasNode g tt tn = true) →
      create_relationship ft fn rl tt tn g = g) := by
  constructor
  · intro h1 h2 hle
    by_cases he : (⟨ft, fn, rl, tt, tn⟩ : GEdge) ∈ g.edges
    · have hfirst : create_relationship ft fn rl tt tn g = g := by
        unfold create_relationship
        rw [if_pos ⟨h1, h2⟩]
        dsimp only
        rw [if_pos he]
      constructor
      · rw [hfirst, hfirst]
      · rw [hfirst]
        have hpos : 0 < countEdge g ⟨ft, fn, rl, tt, tn⟩ := by
          unfold countEdge
          exact List.length_pos.mpr
            (List.ne_nil_of_mem (List.mem_filter.mpr ⟨he, by simp⟩))
        omega
    · have hfirst : create_relationship ft fn rl tt tn g
          = { g with edges := g.edges ++ [⟨ft, fn, rl, tt, tn⟩] } := by
        unfold create_relationship
        rw [if_pos ⟨h1, h2⟩]
        dsimp only
        rw [if_neg he]
      constructor
      · rw [hfirst]
        unfold create_relationship
        rw [if_pos ⟨h1, h2⟩]
        dsimp only
        rw [if_pos (List.mem_append.mpr (Or.inr (List.mem_singleton.mpr rfl)))]
      · rw [hfirst]
        unfold countEdge
        dsimp only
        rw [List.filter_append]
        have h0 : g.edges.filter (fun e2 => e2 = (⟨ft, fn, rl, tt, tn⟩ : GEdge)) = [] := by
          rw [List.filter_eq_nil_iff]
          intro x hx hbx
          have hx2 : x = (⟨ft, fn, rl, tt, tn⟩ : GEdge) := by simpa using hbx
          exact he (hx2 ▸ hx)
        rw [h0]
        simp
  · intro hn
    unfold create_relationship
    rw [if_neg hn]

/-- Witness for C5 over a concrete two-node graph: a doubled
relationship produces one edge, and a relationship to a missing endpoint
leaves the graph untouched. -/
theorem create_relationship_spec_witness :
    (create_relationship "Topic" "A" "RELATED_TO" "Topic" "B"
        (create_relationship "Topic" "A" "RELATED_TO" "Topic" "B"
          ⟨[⟨"Topic", "A", [("name", "A")]⟩, ⟨"Topic", "B", [("name", "B")]⟩], []⟩)
      = create_relationship "Topic" "A" "RELATED_TO" "Topic" "B"
          ⟨[⟨"Topic", "A", [("name", "A")]⟩, ⟨"Topic", "B", [("name", "B")]⟩], []⟩ ∧
     countEdge (create_relationship "Topic" "A" "RELATED_TO" "Topic" "B"
          ⟨[⟨"Topic", "A", [("name", "A")]⟩, ⟨"Topic", "B", [("name", "B")]⟩], []⟩)
        ⟨"Topic", "A", "RELATED_TO", "Topic", "B"⟩ = 1) ∧
    create_relationship "Topic" "A" "RELATED_TO" "Topic" "C"
        ⟨[⟨"Topic", "A", [("name", "A")]⟩, ⟨"Topic", "B", [("name", "B")]⟩], []⟩
      = ⟨[⟨"Topic", "A", [("name", "A")]⟩, ⟨"Topic", "B", [("name", "B")]⟩], []⟩ :=
  ⟨(create_relationship_spec
      ⟨[⟨"Topic", "A", [("name", "A")]⟩, ⟨"Topic", "B", [("name", "B")]⟩], []⟩
      "Topic" "A" "RELATED_TO" "Topic" "B").1 (by decide) (by decide) (by decide),
   (create_relationship_spec
      ⟨[⟨"Topic", "A", [("name", "A")]⟩, ⟨"Topic", "B", [("name", "B")]⟩], []⟩
      "Topic" "A" "RELATED_TO" "Topic" "C").2 (by decide)⟩

/-- Claim C6: after any sequence of `create_entity` calls the graph holds
at most one node per (type, name) pair; two `create_entity "Topic" "X"`
calls produce exactly one Topic node named X; a later call's property map
is overlaid onto the found node, and keys the update does not mention keep
their previous values. -/
theorem create_entity_natural_key :
    (∀ (calls : List EntityCall) (g : Graph), wfGraph g → wfGraph (runCreates calls g)) ∧
    (∀ (g : Graph) (p1 p2 : List (String × String)), wfGraph g →
      countNodes (runCreates
        [⟨"Topic", "X", p1⟩, ⟨"Topic", "X", p2⟩] g) "Topic" "X" = 1) ∧
    (∀ (g : Graph) (t n : String) (nd : GNode) (props : List (String × String)),
      t ∈ ENTITY_TYPES → findNode g t n = some nd →
      (create_entity t n props g).map (fun g2 => findNode g2 t n)
        = Except.ok (some { nd with
            props := applyProps nd.props (updList props "name" n) })) ∧
    (∀ (base upd : List (String × String)) (k : String),
      (∀ kv ∈ upd, kv.1 ≠ k) → dictGet (applyProps base upd) k = dictGet base k) := by
  have hstep : ∀ (p : List (String × String)) (g2 : Graph),
      (match create_entity "Topic" "X" p g2 with
       | Except.ok g3 => g3
       | Except.error _ => g2)
        = mergeEntity "Topic" "X" (updList p "name" "X") g2 := by
    intro p g2
    unfold create_entity
    rw [if_pos (by decide : "Topic" ∈ ENTITY_TYPES)]
  refine ⟨?_, ?_, ?_, ?_⟩
  · intro calls
    induction calls with
    | nil => intro g hwf; exact hwf
    | cons c rest ih =>
      intro g hwf
      apply ih
      unfold create_entity
      dsimp only
      by_cases hv : c.etype ∈ ENTITY_TYPES
      · rw [if_pos hv]
        exact wfGraph_mergeEntity _ _ _ _ hwf
      · rw [if_neg hv]
        exact hwf
  · intro g p1 p2 hwf
    unfold runCreates
    simp only [List.foldl_cons, List.foldl_nil]
    rw [hstep, hstep]
    exact countNodes_mergeEntity_self _ _ _ _ (wfGraph_mergeEntity _ _ _ _ hwf)
  · intro g t n nd props ht hf
    unfold create_entity
    rw [if_pos ht]
    show Except.ok (findNode (mergeEntity t n (updList props "name" n) g) t n) = _
    rw [findNode_mergeEntity t n (updList props "name" n) g nd hf]
  · intro base upd k h
    exact dictGet_applyProps_notmem upd base k h

/-- Witness for C6: a doubled Topic upsert on the empty graph yields one
node, and an upsert onto an existing node returns the overlaid node. -/
theorem create_entity_natural_key_witness :
    countNodes (runCreates
        [⟨"Topic", "X", [("lang", "en")]⟩, ⟨"Topic", "X", [("year", "2024")]⟩]
        ⟨[], []⟩) "Topic" "X" = 1 ∧
    (create_entity "Topic" "X" [("year", "2024")]
        ⟨[⟨"Topic", "X", [("name", "X"), ("lang", "en")]⟩], []⟩).map
        (fun g2 => findNode g2 "Topic" "X")
      = Except.ok (some ⟨"Topic", "X",
          applyProps [("name", "X"), ("lang", "en")]
            (updList [("year", "2024")] "name" "X")⟩) :=
  ⟨(create_entity_natural_key.2.1 ⟨[], []⟩ [("lang", "en")] [("year", "2024")]
      (by simp [wfGraph])),
   (create_entity_natural_key.2.2.1 ⟨[⟨"Topic", "X", [("name", "X"), ("lang", "en")]⟩], []⟩
      "Topic" "X" ⟨"Topic", "X", [("name", "X"), ("lang", "en")]⟩ [("year", "2024")]
      (by decide) (by decide))⟩

/-- Counterexample to claim C4 as stated: the model returns the parseable
JSON object \x7b"x": []\x7d, which is not the five-key EntityBundle shape,
yet `extract_entities` returns it as-is instead of the all-empty bundle
(and raises nothing). -/
theorem extract_entities_shape_counterexample :
    extract_entities (fun _ => Except.ok (Json.obj [("x", Json.arr [])]))
        (Except.ok "\x7b\x22x\x22: []\x7d") "some text" (some "T")
      ≠ emptyBundle := by
  have heval : extract_entities (fun _ => Except.ok (Json.obj [("x", Json.arr [])]))
      (Except.ok "\x7b\x22x\x22: []\x7d") "some text" (some "T")
      = [("x", Json.arr [])] := rfl
  intro h
  rw [heval] at h
  have h2 := congrArg (List.map Prod.fst) h
  simp only [emptyBundle, List.map_cons, List.map_nil] at h2
  exact absurd h2 (by decide)

/-- Claim C4 (amended): the entity extractor is total (the embedding is a
pure function, mirroring that every exception is caught), and it returns
the all-empty bundle whenever the model call fails, the cleaned response
fails to parse as JSON, the parsed value is not a JSON object (the `.get`
on it raises AttributeError), or its "topics"/"technologies" entries
(defaulting to []) do not support len() (TypeError in the logging line);
but a response that parses to a JSON object passing those accesses is
returned as-is, even when it is not the five-key EntityBundle shape. -/
theorem extract_entities_amended (jsonLoads : String → Except String Json)
    (genResult : Except String String) (text : String) (title : Option String) :
    (∀ e, genResult = Except.error e →
      extract_entities jsonLoads genResult text title = emptyBundle) ∧
    (∀ raw e, genResult = Except.ok raw →
      jsonLoads (cleanedResponse raw) = Except.error e →
      extract_entities jsonLoads genResult text title = emptyBundle) ∧
    (∀ raw v, genResult = Except.ok raw →
      jsonLoads (cleanedResponse raw) = Except.ok v →
      (∀ fields, v ≠ Json.obj fields) →
      extract_entities jsonLoads genResult text title = emptyBundle) ∧
    (∀ raw fields, genResult = Except.ok raw →
      jsonLoads (cleanedResponse raw) = Except.ok (Json.obj fields) →
      ((∃ e, pyLen ((dictGet fields "topics").getD (Json.arr [])) = Except.error e) ∨
       (∃ e, pyLen ((dictGet fields "technologies").getD (Json.arr [])) = Except.error e)) →
      extract_entities jsonLoads genResult text title = emptyBundle) ∧
    (∀ raw fields, genResult = Except.ok raw →
      jsonLoads (cleanedResponse raw) = Except.ok (Json.obj fields) →
      (∃ a, pyLen ((dictGet fields "topics").getD (Json.arr [])) = Except.ok a) →
      (∃ b, pyLen ((dictGet fields "technologies").getD (Json.arr [])) = Except.ok b) →
      pyStrip text ≠ "" →
      extract_entities jsonLoads genResult text title = fields) := by
  refine ⟨?_, ?_, ?_, ?_, ?_⟩
  · intro e hg
    unfold extract_entities
    by_cases htext : pyStrip text = ""
    · rw [if_pos htext]
    · rw [if_neg htext, hg]
  · intro raw e hg hj
    unfold extract_entities
    by_cases htext : pyStrip text = ""
    · rw [if_pos htext]
    · rw [if_neg htext, hg]
      dsimp only
      rw [hj]
  · intro raw v hg hj hno
    unfold extract_entities
    by_cases htext : pyStrip text = ""
    · rw [if_pos htext]
    · rw [if_neg htext, hg]
      dsimp only
      rw [hj]
      cases v with
      | obj fields => exact absurd rfl (hno fields)
      | null => rfl
      | bool b => rfl
      | num n => rfl
      | str s => rfl
      | arr l => rfl
  · intro raw fields hg hj hlen
    unfold extract_entities
    by_cases htext : pyStrip text = ""
    · rw [if_pos htext]
    · rw [if_neg htext, hg]
      dsimp only
      rw [hj]
      dsimp only
      rcases hlen with ⟨e1, he1⟩ | ⟨e1, he1⟩
      · rw [he1]
      · rw [he1]
        rcases hX : pyLen ((dictGet fields "topics").getD (Json.arr [])) with e2 | a
        · rfl
        · rfl
  · intro raw fields hg hj ⟨a, ha⟩ ⟨b, hb⟩ htext
    unfold extract_entities
    rw [if_neg htext, hg]
    dsimp only
    rw [hj]
    dsimp only
    rw [ha, hb]

/-- Witness for the amended C4: a parsed JSON array yields the empty
bundle, an object whose topics entry is a number yields the empty bundle,
and a concrete non-EntityBundle JSON object is passed through unchanged. -/
theorem extract_entities_amended_witness :
    extract_entities (fun _ => Except.ok (Json.arr []))
        (Except.ok "[]") "other text" none
      = emptyBundle ∧
    extract_entities (fun _ => Except.ok (Json.obj [("topics", Json.num 3)]))
        (Except.ok "\x7b\x22topics\x22: 3\x7d") "other text" none
      = emptyBundle ∧
    extract_entities (fun _ => Except.ok (Json.obj [("x", Json.arr [])]))
        (Except.ok "\x7b\x22x\x22: []\x7d") "other text" none
      = [("x", Json.arr [])] :=
  ⟨(extract_entities_amended (fun _ => Except.ok (Json.arr []))
      (Except.ok "[]") "other text" none).2.2.1
    "[]" (Json.arr []) rfl rfl (fun fields h => Json.noConfusion h),
   (extract_entities_amended (fun _ => Except.ok (Json.obj [("topics", Json.num 3)]))
      (Except.ok "\x7b\x22topics\x22: 3\x7d") "other text" none).2.2.2.1
    "\x7b\x22topics\x22: 3\x7d" [("topics", Json.num 3)] rfl rfl
    (Or.inl ⟨"TypeError: object has no len", rfl⟩),
   (extract_entities_amended (fun _ => Except.ok (Json.obj [("x", Json.arr [])]))
      (Except.ok "\x7b\x22x\x22: []\x7d") "other text" none).2.2.2.2
    "\x7b\x22x\x22: []\x7d" [("x", Json.arr [])] rfl rfl
    ⟨0, rfl⟩ ⟨0, rfl⟩ (by decide)⟩

/-- Claim C2: when the scraper reports a non-success status, `ingest_url`
terminates immediately with the structured error record (status error,
the prefixed reason, null result): no chunking happens, no Vector Store
call and no Graph Store call is made (the effect trace is empty), and both
stores are returned exactly as they were. -/
theorem ingest_url_scrape_error {V : Type} (chunkerFn : String → List SemChunk)
    (encode : String → V) (ids : Nat → String) (jsonLoads : String → Except String Json)
    (genResult : Except String String)
    (graphWrite : ArticleData → Graph → Graph × Option String)
    (st : Stores V) (e : String) :
    ingest_url (Except.error e) chunkerFn encode ids jsonLoads genResult graphWrite st
      = (IngestResult.failure ("Scraping failed: " ++ e), st, []) := rfl

/-- Claim C3: when scraping succeeds, chunking is non-empty and the graph
write raises, `ingest_url` catches the failure and still returns the
terminal success payload (status success, url, title, chunk_count,
entities); the chunks committed to the vector store stay committed, and
the graph is left exactly as the failed non-transactional write left it —
possibly partially updated, with nothing rolled back. -/
theorem ingest_url_graph_write_failure {V : Type} (result : ScrapeSuccess)
    (chunkerFn : String → List SemChunk) (encode : String → V) (ids : Nat → String)
    (jsonLoads : String → Except String Json) (genResult : Except String String)
    (graphWrite : ArticleData → Graph → Graph × Option String)
    (st : Stores V) (e : String)
    (hchunks : chunk_and_embed chunkerFn encode result.text ≠ [])
    (hfail : (graphWrite
        (articleDataOf result (extract_entities jsonLoads genResult result.text result.title))
        st.graph).2 = some e) :
    ingest_url (Except.ok result) chunkerFn encode ids jsonLoads genResult graphWrite st
      = (IngestResult.success result.url result.title
           (chunk_and_embed chunkerFn encode result.text).length
           (extract_entities jsonLoads genResult result.text result.title),
         { points := st.points
             ++ mkPoints ids (chunk_and_embed chunkerFn encode result.text)
                  (docMetadata result),
           graph := (graphWrite
             (articleDataOf result
               (extract_entities jsonLoads genResult result.text result.title))
             st.graph).1 },
         [Effect.chunkCall, Effect.initCollection,
          Effect.vectorUpsert (chunk_and_embed chunkerFn encode result.text).length,
          Effect.extractCall, Effect.graphWriteCall]) := by
  have hne : ¬ (chunk_and_embed chunkerFn encode result.text).isEmpty = true := by
    simpa [List.isEmpty_iff] using hchunks
  unfold ingest_url
  dsimp only
  rw [if_neg hne]
  unfold store_chunks
  rw [if_neg hne]
  dsimp only
  have hlen : (mkPoints ids (chunk_and_embed chunkerFn encode result.text)
      (docMetadata result)).length
      = (chunk_and_embed chunkerFn encode result.text).length := by
    simp [mkPoints]
  rw [hlen]
  rfl

/-- Witness for C3 at concrete inputs where the graph write raises after
having committed one Article node: the success payload is returned, the
vector points stay, and the graph keeps the partial write. -/
theorem ingest_url_graph_write_failure_witness :
    ingest_url (Except.ok ⟨"u", some "T", "body", "d", "now"⟩)
        (fun _ => [⟨"c", none⟩]) (fun _ => (0 : Nat)) (fun _ => "id")
        (fun _ => Except.error "bad") (Except.error "down")
        (fun _ _ => (⟨[⟨"Article", "T", [("name", "T")]⟩], []⟩, some "neo down"))
        ⟨[], ⟨[], []⟩⟩
      = (IngestResult.success "u" (some "T") 1 emptyBundle,
         { points := mkPoints (fun _ => "id")
             [⟨"c", 0, none, (0 : Nat)⟩] (docMetadata ⟨"u", some "T", "body", "d", "now"⟩),
           graph := ⟨[⟨"Article", "T", [("name", "T")]⟩], []⟩ },
         [Effect.chunkCall, Effect.initCollection, Effect.vectorUpsert 1,
          Effect.extractCall, Effect.graphWriteCall]) := by
  have h := ingest_url_graph_write_failure ⟨"u", some "T", "body", "d", "now"⟩
    (fun _ => [⟨"c", none⟩]) (fun _ => (0 : Nat)) (fun _ => "id")
    (fun _ => Except.error "bad") (Except.error "down")
    (fun _ _ => (⟨[⟨"Article", "T", [("name", "T")]⟩], []⟩, some "neo down"))
    ⟨[], ⟨[], []⟩⟩ "neo down" (by decide) rfl
  exact h.trans (by rfl)

/-- Claim C1: `hybrid_search` is total (it never raises — the report is a
pure value for every oracle behaviour) and its report is always the
header, the vector section, the knowledge-graph section and the trailing
summary, in that order; the graph section is a function of the graph
oracles only and the vector section of the vector oracles only, so a
failure in one pass never removes or prevents the other pass's section;
a failing vector pass renders its error inline inside the vector section,
and a failing articles query renders its error inline inside the graph
section. -/
theorem hybrid_search_sections {V : Type} (embedQ : String → Except String V)
    (searchSim : V → Nat → Except String (List VecHit))
    (artQ : List String → Nat → Except String (List ArticleRec))
    (conQ : List String → Except String (List ConceptRec))
    (query : String) (lim : Nat) :
    (hybrid_search embedQ searchSim artQ conQ query lim
      = "HYBRID SEARCH RESULTS\n\n"
        ++ vectorSection (vectorPass embedQ searchSim query lim)
        ++ graphSection (artQ (queryTerms query) lim) (conQ (queryTerms query))
        ++ summarySection (hasAnyResults (vectorPass embedQ searchSim query lim)
             (artQ (queryTerms query) lim) (conQ (queryTerms query)))) ∧
    (∀ e, vectorPass embedQ searchSim query lim = Except.error e →
      vectorSection (vectorPass embedQ searchSim query lim)
        = "VECTOR DATABASE RESULTS (Semantic Search)\n" ++ dashRule ++ "\n"
          ++ ("Vector search encountered an error: " ++ e ++ "\n\n")) ∧
    (∀ e, artQ (queryTerms query) lim = Except.error e →
      graphSection (artQ (queryTerms query) lim) (conQ (queryTerms query))
        = "\nKNOWLEDGE GRAPH RESULTS (Entity Relationships)\n" ++ dashRule ++ "\n"
          ++ ("Knowledge graph search encountered an error: " ++ e ++ "\n")) := by
  refine ⟨rfl, ?_, ?_⟩
  · intro e he
    rw [he]
    rfl
  · intro e he
    rw [he]
    rfl

/-- Witness for C1: with a failing embedder and a failing articles query
the report still carries both sections, each with its inline error, plus
the summary. -/
theorem hybrid_search_sections_witness :
    vectorSection (vectorPass (fun _ => (Except.error "qdrant down" : Except String Unit))
        (fun _ _ => (Except.ok [] : Except String (List VecHit))) "attention" 5)
      = "VECTOR DATABASE RESULTS (Semantic Search)\n" ++ dashRule ++ "\n"
        ++ ("Vector search encountered an error: " ++ "qdrant down" ++ "\n\n") ∧
    graphSection ((fun _ _ => (Except.error "neo4j down" : Except String (List ArticleRec)))
        (queryTerms "attention") 5) ((fun _ => (Except.ok [] : Except String (List ConceptRec))) (queryTerms "attention"))
      = "\nKNOWLEDGE GRAPH RESULTS (Entity Relationships)\n" ++ dashRule ++ "\n"
        ++ ("Knowledge graph search encountered an error: " ++ "neo4j down" ++ "\n") ∧
    hybrid_search (fun _ => (Except.error "qdrant down" : Except String Unit)) (fun _ _ => (Except.ok [] : Except String (List VecHit)))
        (fun _ _ => (Except.error "neo4j down" : Except String (List ArticleRec))) (fun _ => (Except.ok [] : Except String (List ConceptRec))) "attention" 5
      = "HYBRID SEARCH RESULTS\n\n"
        ++ vectorSection (vectorPass (fun _ => (Except.error "qdrant down" : Except String Unit))
             (fun _ _ => (Except.ok [] : Except String (List VecHit))) "attention" 5)
        ++ graphSection ((fun _ _ => (Except.error "neo4j down" : Except String (List ArticleRec)))
             (queryTerms "attention") 5) ((fun _ => (Except.ok [] : Except String (List ConceptRec))) (queryTerms "attention"))
        ++ summarySection (hasAnyResults
             (vectorPass (fun _ => (Except.error "qdrant down" : Except String Unit))
               (fun _ _ => (Except.ok [] : Except String (List VecHit))) "attention" 5)
             ((fun _ _ => (Except.error "neo4j down" : Except String (List ArticleRec))) (queryTerms "attention") 5)
             ((fun _ => (Except.ok [] : Except String (List ConceptRec))) (queryTerms "attention"))) :=
  ⟨(hybrid_search_sections (fun _ => (Except.error "qdrant down" : Except String Unit)) (fun _ _ => (Except.ok [] : Except String (List VecHit)))
      (fun _ _ => (Except.error "neo4j down" : Except String (List ArticleRec))) (fun _ => (Except.ok [] : Except String (List ConceptRec))) "attention" 5).2.1
      "qdrant down" rfl,
   (hybrid_search_sections (fun _ => (Except.error "qdrant down" : Except String Unit)) (fun _ _ => (Except.ok [] : Except String (List VecHit)))
      (fun _ _ => (Except.error "neo4j down" : Except String (List ArticleRec))) (fun _ => (Except.ok [] : Except String (List ConceptRec))) "attention" 5).2.2
      "neo4j down" rfl,
   (hybrid_search_sections (fun _ => (Except.error "qdrant down" : Except String Unit)) (fun _ _ => (Except.ok [] : Except String (List VecHit)))
      (fun _ _ => (Except.error "neo4j down" : Except String (List ArticleRec))) (fun _ => (Except.ok [] : Except String (List ConceptRec))) "attention" 5).1⟩

end ARA
